import Mathlib

/-!
Shallow embedding of the kofeinator caffeine pharmacokinetics app
(src/kofeinator.py and src/streamlit_app.py).

Real-valued quantities are modelled over `ℚ` where the source only does
field arithmetic on decimal constants, and over `ℝ` where the source calls
`np.exp`.  `np.maximum (·, 0)` becomes `max · 0`; numpy elementwise array
operations become `List.map`/pointwise definitions over the time grid.
-/

namespace Kofeinator

/-- The `gender` selectbox: "muž" (male) / "žena" (female). -/
inductive Gender where
  | male
  | female
deriving DecidableEq

/-- The `smoking_status` selectbox: "nekuřák" (nonsmoker) / "kuřák" (smoker). -/
inductive Smoking where
  | nonsmoker
  | smoker
deriving DecidableEq

/-- The `liver_function` selectbox: "normální" / "mírně snížená" (mild) /
"výrazně snížená" (severe). -/
inductive Liver where
  | normal
  | mild
  | severe
deriving DecidableEq

/-- The `metabolism_status` selectbox: "normální" / "pomalý metabolizátor"
(slow) / "rychlý metabolizátor" (fast). -/
inductive Metabolism where
  | normal
  | slow
  | fast
deriving DecidableEq

/-- The physiological inputs collected in the sidebar
(streamlit_app.py lines 50-54, kofeinator.py lines 69-73).
The weight widget constrains `weight` to [30, 150] kg. -/
structure Profile where
  weight : ℚ
  gender : Gender
  smoking_status : Smoking
  liver_function : Liver
  metabolism_status : Metabolism
deriving DecidableEq

/-- The pharmacokinetic parameters the app derives from a profile
(streamlit_app.py lines 91-116, kofeinator.py lines 106-138). -/
structure PKParameters where
  F : ℚ
  Ka : ℚ
  Vd : ℚ
  CL : ℚ
  Ke : ℚ
deriving DecidableEq

/-- Parameter derivation, following the source statement by statement
(streamlit_app.py lines 91-116): baseline `Vd = 0.6 * weight`,
`CL = 0.06 * weight`, then the sequential multiplicative adjustments for
metabolism, smoking, gender and liver function, and finally `Ke = CL / Vd`. -/
def deriveParams (p : Profile) : PKParameters :=
  let Vd0 : ℚ := 0.6 * p.weight
  let CL0 : ℚ := 0.06 * p.weight
  let CL1 : ℚ :=
    match p.metabolism_status with
    | Metabolism.slow => CL0 * 0.3
    | Metabolism.fast => CL0 * 1.3
    | Metabolism.normal => CL0
  let CL2 : ℚ :=
    match p.smoking_status with
    | Smoking.smoker => CL1 * 1.5
    | Smoking.nonsmoker => CL1
  let Vd1 : ℚ :=
    match p.gender with
    | Gender.female => Vd0 * 0.85
    | Gender.male => Vd0
  let CL3 : ℚ :=
    match p.gender with
    | Gender.female => CL2 * 0.85
    | Gender.male => CL2
  let CL4 : ℚ :=
    match p.liver_function with
    | Liver.mild => CL3 * 0.8
    | Liver.severe => CL3 * 0.5
    | Liver.normal => CL3
  { F := 1.0, Ka := 1.2, Vd := Vd1, CL := CL4, Ke := CL4 / Vd1 }

/-- The one-compartment model (streamlit_app.py lines 11-14, kofeinator.py
lines 13-30):
`C = (F*dose*Ka) / (Vd*(Ka-Ke)) * (exp(-Ke*t) - exp(-Ka*t))` followed by
`C = np.maximum(C, 0)`.  There is no conditional in the source: the division
by `Vd*(Ka-Ke)` is performed unconditionally. -/
noncomputable def calculate_plasma_concentration
    (dose F Ka Ke Vd t : ℝ) : ℝ :=
  max ((F * dose * Ka) / (Vd * (Ka - Ke)) * (Real.exp (-Ke * t) - Real.exp (-Ka * t))) 0

/-- Modelled from the spec: the limiting-case formula
`C(τ) = F·A·Ka·τ·e^(−Ka·τ) / Vd` that the spec prescribes for `|Ka−Ke| < ε`.
No such formula appears anywhere in src/; this definition exists only to be
compared against `calculate_plasma_concentration`. -/
noncomputable def limiting_case_concentration (dose F Ka Vd t : ℝ) : ℝ :=
  F * dose * Ka * t * Real.exp (-Ka * t) / Vd

/-- One entry of the dose schedule (`st.session_state.coffee_entries`):
caffeine amount in mg and the dose timestamp in hours from the simulation
origin. -/
structure DoseEvent where
  amount : ℚ
  timestamp : ℚ
deriving DecidableEq

/-- The fixed coffee menu (streamlit_app.py lines 34-47).  The value is
`Option ℚ`: every named coffee carries its mg-per-serving, the sentinel
"Vlastní dávka" stores Python `None`. -/
def coffee_options : List (String × Option ℚ) :=
  [("Espresso (30 ml)", some 63),
   ("Drip (240 ml)", some 95),
   ("French Press (240 ml)", some 100),
   ("Cold Brew (240 ml)", some 120),
   ("Instantní káva (240 ml)", some 65),
   ("Decaf (240 ml)", some 5),
   ("Cappuccino (240 ml)", some 75),
   ("Latte (240 ml)", some 75),
   ("Americano (1 dávka espressa)", some 63),
   ("Mocha (240 ml)", some 80),
   ("Turecká káva (60 ml)", some 60),
   ("Vlastní dávka", none)]

/-- Python `coffee_options.get(choice, 0)` (streamlit_app.py line 69):
the stored value when the key is present (possibly `None`), the default `0`
when the key is absent. -/
def coffeeGet (choice : String) : Option ℚ :=
  match coffee_options.lookup choice with
  | some v => v
  | none => some 0

/-- The add branch of the coffee form (streamlit_app.py lines 68-75):
`caffeine_per_serving = coffee_options.get(coffee_choice, 0)`,
`total_caffeine = caffeine_per_serving * servings`, append the entry.
`none` models the `TypeError` Python raises on `None * servings` when the
stored value is `None`; in every other case the entry is appended with no
error of any kind. -/
def addEntry (entries : List DoseEvent) (choice : String) (servings : ℚ)
    (t : ℚ) : Option (List DoseEvent) :=
  match coffeeGet choice with
  | some per => some (entries ++ [{ amount := per * servings, timestamp := t }])
  | none => none

/-- Length of `np.arange(0, H + s/60, s/60)` in exact arithmetic
(streamlit_app.py line 121, kofeinator.py line 145): numpy produces
`ceil((stop - start) / step) = ceil((60*H + s) / s) = ceil(60*H / s) + 1`
points; `(60*H + s - 1) / s` is `ceil(60*H / s)` in natural division. -/
def gridLen (H s : ℕ) : ℕ :=
  (60 * H + s - 1) / s + 1

/-- The time grid `t_hours = np.arange(0, H + s/60, s/60)` in exact
arithmetic: the points `k * (s/60)` for `k = 0, …, gridLen H s - 1`. -/
def t_hours (H s : ℕ) : List ℚ :=
  (List.range (gridLen H s)).map (fun (k : ℕ) => (k : ℚ) * ((s : ℚ) / 60))

/-- Contribution of one dose event at one grid point (streamlit_app.py
lines 125-131): `time_since_dose = max(t - dose_time, 0)` fed into
`calculate_plasma_concentration`. -/
noncomputable def contribution (p : PKParameters) (e : DoseEvent) (t : ℚ) : ℝ :=
  calculate_plasma_concentration (e.amount : ℝ) (p.F : ℝ) (p.Ka : ℝ) (p.Ke : ℝ)
    (p.Vd : ℝ) (max ((t : ℝ) - (e.timestamp : ℝ)) 0)

/-- The simulation loop (streamlit_app.py lines 123-131): start from
`C = np.zeros_like(t_hours)` and add each dose event's curve; at each grid
point the result is the sum of the per-dose contributions. -/
noncomputable def simulate (p : PKParameters) (doses : List DoseEvent)
    (grid : List ℚ) : List ℝ :=
  grid.map (fun t => (doses.map (fun e => contribution p e t)).sum)

/-- Python `min` over an iterable with a key function: fold keeping the
current best, replacing it only when the new key is strictly smaller, so the
first minimiser wins. -/
def argminAux (key : ℕ → ℚ) : List ℕ → ℕ → ℕ
  | [], best => best
  | i :: rest, best => argminAux key rest (if key i < key best then i else best)

/-- The source line `idx_bedtime = min(range(len(time_points)), key=lambda i: abs(time_points[i] - bedtime))`
(streamlit_app.py line 193, kofeinator.py line 222), over hour offsets. -/
def bedtimeIndex (ts : List ℚ) (q : ℚ) : ℕ :=
  argminAux (fun i => |ts.getD i 0 - q|) (List.range ts.length) 0

/-- The source line `caffeine_at_bedtime = C[idx_bedtime]` (streamlit_app.py line 194). -/
noncomputable def caffeineAtBedtime (grid : List ℚ) (curve : List ℝ) (q : ℚ) : ℝ :=
  curve.getD (bedtimeIndex grid q) 0

/-- The sleep verdict `caffeine_at_bedtime > 1.0` (streamlit_app.py
line 200): the warning branch is taken iff the concentration at the bedtime
index strictly exceeds 1 mg/L. -/
def exceedsSleepThreshold (c : ℝ) : Prop :=
  c > 1

/-- The concrete profile of the spec scenario: 70 kg male, nonsmoker,
normal liver, normal metabolism. -/
def profile70 : Profile :=
  { weight := 70, gender := Gender.male, smoking_status := Smoking.nonsmoker,
    liver_function := Liver.normal, metabolism_status := Metabolism.normal }

/-- Vd adjustment factor as the spec states it, for comparison with the
sequential code of `deriveParams` (spec section 4.1, item 3). -/
def genderVdFactor : Gender → ℚ
  | Gender.female => 0.85
  | Gender.male => 1

/-- CL gender adjustment factor as the spec states it. -/
def genderClFactor : Gender → ℚ
  | Gender.female => 0.85
  | Gender.male => 1

/-- CL metabolism adjustment factor as the spec states it. -/
def metabolismFactor : Metabolism → ℚ
  | Metabolism.slow => 0.3
  | Metabolism.fast => 1.3
  | Metabolism.normal => 1

/-- CL smoking adjustment factor as the spec states it. -/
def smokingFactor : Smoking → ℚ
  | Smoking.smoker => 1.5
  | Smoking.nonsmoker => 1

/-- CL liver-function adjustment factor as the spec states it. -/
def liverFactor : Liver → ℚ
  | Liver.mild => 0.8
  | Liver.severe => 0.5
  | Liver.normal => 1

end Kofeinator

namespace Kofeinator

/-- Invariant of the Python-`min` fold: over a strictly increasing index
list whose elements all exceed the initial best, the result is a member (or
the initial best), its key is minimal, a changed best has a strictly
smaller key, and every index strictly before the result has a strictly
larger key (so ties keep the earlier index). -/
lemma argminAux_spec (key : ℕ → ℚ) :
    ∀ (l : List ℕ) (b : ℕ), l.Pairwise (· < ·) → (∀ j ∈ l, b < j) →
      (argminAux key l b = b ∨ argminAux key l b ∈ l) ∧
      key (argminAux key l b) ≤ key b ∧
      (∀ j ∈ l, key (argminAux key l b) ≤ key j) ∧
      (argminAux key l b ≠ b → key (argminAux key l b) < key b) ∧
      (∀ j ∈ l, j < argminAux key l b → key (argminAux key l b) < key j) := by
  intro l
  induction l with
  | nil =>
    intro b _ _
    exact ⟨Or.inl rfl, le_refl _, by simp, fun h => absurd rfl h, by simp⟩
  | cons i rest ih =>
    intro b hpair hb
    have hpr : rest.Pairwise (· < ·) := (List.pairwise_cons.mp hpair).2
    have hir : ∀ j ∈ rest, i < j := (List.pairwise_cons.mp hpair).1
    have hbi : b < i := hb i (List.mem_cons_self i rest)
    by_cases hcmp : key i < key b
    · have hstep : argminAux key (i :: rest) b = argminAux key rest i := by
        simp [argminAux, hcmp]
      obtain ⟨hA, hB1, hB2, hC, hD⟩ := ih i hpr hir
      rw [hstep]
      refine ⟨?_, ?_, ?_, ?_, ?_⟩
      · rcases hA with h | h
        · exact Or.inr (by rw [h]; exact List.mem_cons_self i rest)
        · exact Or.inr (List.mem_cons_of_mem i h)
      · exact le_of_lt (lt_of_le_of_lt hB1 hcmp)
      · intro j hj
        rcases List.mem_cons.mp hj with rfl | hj2
        · exact hB1
        · exact hB2 j hj2
      · intro _
        exact lt_of_le_of_lt hB1 hcmp
      · intro j hj hjr
        rcases List.mem_cons.mp hj with rfl | hj2
        · exact hC (ne_of_gt hjr)
        · exact hD j hj2 hjr
    · have hstep : argminAux key (i :: rest) b = argminAux key rest b := by
        simp [argminAux, hcmp]
      have hble : key b ≤ key i := le_of_not_lt hcmp
      have hb2 : ∀ j ∈ rest, b < j := fun j hj => hb j (List.mem_cons_of_mem i hj)
      obtain ⟨hA, hB1, hB2, hC, hD⟩ := ih b hpr hb2
      rw [hstep]
      refine ⟨?_, ?_, ?_, ?_, ?_⟩
      · rcases hA with h | h
        · exact Or.inl h
        · exact Or.inr (List.mem_cons_of_mem i h)
      · exact hB1
      · intro j hj
        rcases List.mem_cons.mp hj with rfl | hj2
        · exact le_trans hB1 hble
        · exact hB2 j hj2
      · exact hC
      · intro j hj hjr
        rcases List.mem_cons.mp hj with rfl | hj2
        · have hrb : argminAux key rest b ≠ b := by omega
          exact lt_of_lt_of_le (hC hrb) hble
        · exact hD j hj2 hjr

/-- Characterisation of `bedtimeIndex` on a nonempty grid: it is a valid
index, its absolute time difference to the query is minimal, and among
equally distant grid points the earliest index is returned. -/
lemma bedtimeIndex_spec (ts : List ℚ) (q : ℚ) (hne : ts ≠ []) :
    bedtimeIndex ts q < ts.length ∧
    (∀ j < ts.length,
      |ts.getD (bedtimeIndex ts q) 0 - q| ≤ |ts.getD j 0 - q|) ∧
    (∀ j < ts.length,
      |ts.getD j 0 - q| = |ts.getD (bedtimeIndex ts q) 0 - q| →
        bedtimeIndex ts q ≤ j) := by
  obtain ⟨m, hm⟩ : ∃ m, ts.length = m + 1 :=
    ⟨ts.length - 1, by have := List.length_pos.mpr hne; omega⟩
  set key : ℕ → ℚ := fun i => |ts.getD i 0 - q| with hkey
  have hunfold : bedtimeIndex ts q = argminAux key ((List.range m).map Nat.succ) 0 := by
    rw [bedtimeIndex, hm, List.range_succ_eq_map]
    show argminAux key (0 :: (List.range m).map Nat.succ) 0 = _
    rw [argminAux, if_neg (lt_irrefl (key 0))]
  have hpair : ((List.range m).map Nat.succ).Pairwise (· < ·) := by
    rw [List.pairwise_map]
    exact (List.pairwise_lt_range m).imp (by omega)
  have hb : ∀ j ∈ (List.range m).map Nat.succ, 0 < j := by
    intro j hj
    simp only [List.mem_map, List.mem_range] at hj
    omega
  have hmemiff : ∀ j, j ∈ (List.range m).map Nat.succ ↔ 1 ≤ j ∧ j < m + 1 := by
    intro j
    simp only [List.mem_map, List.mem_range]
    constructor
    · rintro ⟨a, ha, rfl⟩
      omega
    · rintro ⟨hj1, hj2⟩
      exact ⟨j - 1, by omega, by omega⟩
  obtain ⟨hA, hB1, hB2, hC, hD⟩ := argminAux_spec key _ 0 hpair hb
  rw [← hunfold] at hA hB1 hB2 hC hD
  refine ⟨?_, ?_, ?_⟩
  · rcases hA with h | h
    · rw [h, hm]
      omega
    · have := (hmemiff _).mp h
      rw [hm]
      omega
  · intro j hj
    rcases Nat.eq_zero_or_pos j with rfl | hjpos
    · exact hB1
    · exact hB2 j ((hmemiff j).mpr ⟨hjpos, by omega⟩)
  · intro j hj heq
    rcases Nat.eq_zero_or_pos j with rfl | hjpos
    · by_contra hcon
      have hrne : bedtimeIndex ts q ≠ 0 := by omega
      exact (hC hrne).ne' heq
    · by_contra hcon
      push_neg at hcon
      have hmem := (hmemiff j).mpr ⟨hjpos, by omega⟩
      exact (hD j hmem hcon).ne' heq

/-- Simulating an empty dose schedule gives the identically-zero curve. -/
lemma simulate_nil (p : PKParameters) (grid : List ℚ) :
    simulate p [] grid = grid.map (fun _ => (0 : ℝ)) := by
  simp [simulate]

/-- Any lookup with default `0` into an all-zero curve yields `0`. -/
lemma getD_map_zero (grid : List ℚ) (i : ℕ) :
    (grid.map (fun _ => (0 : ℝ))).getD i 0 = 0 := by
  rcases lt_or_ge i (grid.map (fun _ => (0 : ℝ))).length with h | h
  · rw [List.getD_eq_getElem _ _ h, List.getElem_map]
  · exact List.getD_eq_default _ _ h

/-- C6: the bedtime query returns the curve value at the grid index with
minimal absolute time difference to the query (ties go to the earlier
index); the sleep flag holds iff that value strictly exceeds 1 mg/L; and on
the identically-zero curve (empty schedule) the value is 0 and the flag is
false. -/
theorem c6_bedtime_query (grid : List ℚ) (curve : List ℝ) (q : ℚ)
    (p : PKParameters) (hne : grid ≠ []) :
    bedtimeIndex grid q < grid.length ∧
    (∀ j < grid.length,
      |grid.getD (bedtimeIndex grid q) 0 - q| ≤ |grid.getD j 0 - q|) ∧
    (∀ j < grid.length,
      |grid.getD j 0 - q| = |grid.getD (bedtimeIndex grid q) 0 - q| →
        bedtimeIndex grid q ≤ j) ∧
    (exceedsSleepThreshold (caffeineAtBedtime grid curve q) ↔
      caffeineAtBedtime grid curve q > 1) ∧
    caffeineAtBedtime grid (simulate p [] grid) q = 0 ∧
    ¬ exceedsSleepThreshold (caffeineAtBedtime grid (simulate p [] grid) q) := by
  obtain ⟨h1, h2, h3⟩ := bedtimeIndex_spec grid q hne
  have hz : caffeineAtBedtime grid (simulate p [] grid) q = 0 := by
    rw [caffeineAtBedtime, simulate_nil, getD_map_zero]
  refine ⟨h1, h2, h3, Iff.rfl, hz, ?_⟩
  simp only [exceedsSleepThreshold, hz]
  norm_num

/-- Taylor bounds: `exp(-0.1) ∈ [0.90482, 0.90484]`. -/
lemma exp_neg_01_bounds :
    (0.90482 : ℝ) ≤ Real.exp (-0.1) ∧ Real.exp (-0.1) ≤ 0.90484 := by
  have habs : |(-0.1 : ℝ)| = 0.1 := by
    rw [abs_neg]
    exact abs_of_nonneg (by norm_num)
  have h := @Real.exp_bound (-0.1) (by rw [habs]; norm_num) 4 (by norm_num)
  rw [habs] at h
  have hsum : ∑ m ∈ Finset.range 4, (-0.1 : ℝ) ^ m / m.factorial = 5429 / 6000 := by
    simp [Finset.sum_range_succ, Nat.factorial]
    norm_num
  rw [hsum] at h
  norm_num [Nat.factorial] at h
  rw [abs_le] at h
  constructor <;> linarith [h.1, h.2]

/-- Taylor bounds: `exp(-0.6) ∈ [0.548676, 0.54883]`. -/
lemma exp_neg_06_bounds :
    (0.548676 : ℝ) ≤ Real.exp (-0.6) ∧ Real.exp (-0.6) ≤ 0.54883 := by
  have habs : |(-0.6 : ℝ)| = 0.6 := by
    rw [abs_neg]
    exact abs_of_nonneg (by norm_num)
  have h := @Real.exp_bound (-0.6) (by rw [habs]; norm_num) 6 (by norm_num)
  rw [habs] at h
  have hsum : ∑ m ∈ Finset.range 6, (-0.6 : ℝ) ^ m / m.factorial
      = 68594 / 125000 := by
    simp [Finset.sum_range_succ, Nat.factorial]
    norm_num
  rw [hsum] at h
  norm_num [Nat.factorial] at h
  rw [abs_le] at h
  constructor <;> linarith [h.1, h.2]

/-- Derived bounds: `exp(-1.2) ∈ [0.30104, 0.30122]`. -/
lemma exp_neg_12_bounds :
    (0.30104 : ℝ) ≤ Real.exp (-1.2) ∧ Real.exp (-1.2) ≤ 0.30122 := by
  have hsq : Real.exp (-1.2) = Real.exp (-0.6) * Real.exp (-0.6) := by
    rw [← Real.exp_add]
    norm_num
  obtain ⟨hl, hu⟩ := exp_neg_06_bounds
  have hpos := Real.exp_pos (-0.6)
  rw [hsq]
  constructor
  · calc (0.30104 : ℝ) ≤ 0.548676 * 0.548676 := by norm_num
      _ ≤ Real.exp (-0.6) * Real.exp (-0.6) :=
        mul_le_mul hl hl (by norm_num) hpos.le
  · calc Real.exp (-0.6) * Real.exp (-0.6) ≤ 0.54883 * 0.54883 :=
        mul_le_mul hu hu hpos.le (by norm_num)
      _ ≤ 0.30122 := by norm_num

/-- The weight-and-gender-free closed form of the derived elimination
rate: `Ke = 0.1 · metabolismFactor · smokingFactor · liverFactor`. -/
lemma deriveParams_Ke_closed (p : Profile) (hw : p.weight ≠ 0) :
    (deriveParams p).Ke = 0.1 * metabolismFactor p.metabolism_status
      * smokingFactor p.smoking_status * liverFactor p.liver_function := by
  obtain ⟨w, g, sm, lv, mb⟩ := p
  simp only [ne_eq] at hw
  cases g <;> cases sm <;> cases lv <;> cases mb <;>
    simp only [deriveParams, metabolismFactor, smokingFactor, liverFactor] <;>
    field_simp <;> ring

/-- Bound `Ke ≤ 0.195` for every profile with nonzero weight. -/
lemma Ke_le_max (p : Profile) (hw : p.weight ≠ 0) :
    (deriveParams p).Ke ≤ 0.195 := by
  rw [deriveParams_Ke_closed p hw]
  obtain ⟨w, g, sm, lv, mb⟩ := p
  cases sm <;> cases lv <;> cases mb <;>
    norm_num [metabolismFactor, smokingFactor, liverFactor]

/-- Bound `Ke ≥ 0` for every profile with positive weight. -/
lemma Ke_nonneg (p : Profile) (hw : p.weight ≠ 0) :
    0 ≤ (deriveParams p).Ke := by
  rw [deriveParams_Ke_closed p hw]
  obtain ⟨w, g, sm, lv, mb⟩ := p
  cases sm <;> cases lv <;> cases mb <;>
    norm_num [metabolismFactor, smokingFactor, liverFactor]

/-- Positivity `Vd > 0` for every profile with positive weight. -/
lemma Vd_pos (p : Profile) (hw : 0 < p.weight) :
    0 < (deriveParams p).Vd := by
  obtain ⟨w, g, sm, lv, mb⟩ := p
  cases g <;> simp only [deriveParams] <;> nlinarith [hw]

/-- C1 counterexample: `calculate_plasma_concentration` applied with
`Ka = Ke = 1.2` (the case the claim says is served by the limiting-case
formula) returns the value of the unguarded general expression — `0` under
total-division semantics, `NaN` in the numpy implementation — while the
limiting-case formula prescribed by the spec is strictly positive, more
than `1/4` away.  The source contains no `|Ka−Ke| < ε` branch at all. -/
theorem c1_counterexample :
    calculate_plasma_concentration 100 1 1.2 1.2 42 1 = 0 ∧
    limiting_case_concentration 100 1 1.2 42 1
      - calculate_plasma_concentration 100 1 1.2 1.2 42 1 > 1 / 4 := by
  have hcode : calculate_plasma_concentration 100 1 1.2 1.2 42 1 = 0 := by
    simp [calculate_plasma_concentration]
  refine ⟨hcode, ?_⟩
  rw [hcode]
  have hl := exp_neg_12_bounds.1
  simp only [limiting_case_concentration, mul_one]
  norm_num
  nlinarith [hl]

/-- C1 amended: the code never switches to a limiting-case formula (see
`c1_counterexample`); instead, for every parameter set derived from a valid
profile the gap `Ka - Ke` is at least `1.005`, so the divisor
`Vd·(Ka−Ke)` of the general formula is nonzero and the removable
singularity is unreachable. -/
theorem c1_no_limiting_branch_needed (p : Profile) (hw1 : 30 ≤ p.weight) :
    1.005 ≤ (deriveParams p).Ka - (deriveParams p).Ke ∧
    (deriveParams p).Vd * ((deriveParams p).Ka - (deriveParams p).Ke) ≠ 0 := by
  have hw0 : (0 : ℚ) < p.weight := lt_of_lt_of_le (by norm_num) hw1
  have hne : p.weight ≠ 0 := ne_of_gt hw0
  have hka : (deriveParams p).Ka = 1.2 := rfl
  have hke := Ke_le_max p hne
  have hgap : 1.005 ≤ (deriveParams p).Ka - (deriveParams p).Ke := by
    rw [hka]
    linarith
  refine ⟨hgap, ?_⟩
  have hvd := Vd_pos p hw0
  have : 0 < (deriveParams p).Vd * ((deriveParams p).Ka - (deriveParams p).Ke) :=
    mul_pos hvd (by linarith)
  exact ne_of_gt this

/-- Witness for the amended C1 at the concrete 70 kg profile. -/
theorem c1_no_limiting_branch_needed_witness :
    ((30 : ℚ) ≤ profile70.weight) ∧
    (1.005 ≤ (deriveParams profile70).Ka - (deriveParams profile70).Ke ∧
     (deriveParams profile70).Vd
       * ((deriveParams profile70).Ka - (deriveParams profile70).Ke) ≠ 0) :=
  ⟨by norm_num [profile70],
    c1_no_limiting_branch_needed profile70 (by norm_num [profile70])⟩

/-- C10: for every valid profile, `Ke` has a closed form that mentions
neither weight nor gender, is at most `0.195`, hence strictly below
`Ka = 1.2`, and the divisor `Vd·(Ka−Ke)` of
`calculate_plasma_concentration` is strictly positive, so the
division-by-zero case is unreachable from valid profiles. -/
theorem c10_singularity_unreachable (p : Profile) (hw1 : 30 ≤ p.weight)
    (hw2 : p.weight ≤ 150) :
    (deriveParams p).Ke = 0.1 * metabolismFactor p.metabolism_status
      * smokingFactor p.smoking_status * liverFactor p.liver_function ∧
    (deriveParams p).Ke ≤ 0.195 ∧
    (deriveParams p).Ke < (deriveParams p).Ka ∧
    0 < (deriveParams p).Vd * ((deriveParams p).Ka - (deriveParams p).Ke) := by
  have hw0 : (0 : ℚ) < p.weight := lt_of_lt_of_le (by norm_num) hw1
  have hne : p.weight ≠ 0 := ne_of_gt hw0
  have hka : (deriveParams p).Ka = 1.2 := rfl
  have hke := Ke_le_max p hne
  refine ⟨deriveParams_Ke_closed p hne, hke, ?_, ?_⟩
  · rw [hka]
    linarith
  · exact mul_pos (Vd_pos p hw0) (by rw [hka]; linarith)

/-- Witness for C10 at the concrete 70 kg profile. -/
theorem c10_singularity_unreachable_witness :
    ((30 : ℚ) ≤ profile70.weight ∧ profile70.weight ≤ 150) ∧
    ((deriveParams profile70).Ke
        = 0.1 * metabolismFactor profile70.metabolism_status
          * smokingFactor profile70.smoking_status
          * liverFactor profile70.liver_function ∧
     (deriveParams profile70).Ke ≤ 0.195 ∧
     (deriveParams profile70).Ke < (deriveParams profile70).Ka ∧
     0 < (deriveParams profile70).Vd
       * ((deriveParams profile70).Ka - (deriveParams profile70).Ke)) :=
  ⟨by norm_num [profile70],
    c10_singularity_unreachable profile70 (by norm_num [profile70])
      (by norm_num [profile70])⟩

/-- The derived parameters of the 70 kg baseline profile. -/
lemma deriveParams_profile70 :
    deriveParams profile70 = { F := 1, Ka := 1.2, Vd := 42, CL := 4.2, Ke := 0.1 } := by
  norm_num [deriveParams, profile70]

/-- The 95 mg dose at `t = 0` contributes `0` at the dosing instant. -/
lemma conc95_at_zero :
    contribution (deriveParams profile70) { amount := 95, timestamp := 0 } 0 = 0 := by
  rw [deriveParams_profile70]
  simp only [contribution, calculate_plasma_concentration]
  norm_num [max_def]

/-- Closed form of the 95 mg dose contribution at `t = 1` hr. -/
lemma conc95_at_one_eq :
    contribution (deriveParams profile70) { amount := 95, timestamp := 0 } 1
      = max ((190 / 77 : ℝ) * (Real.exp (-0.1) - Real.exp (-1.2))) 0 := by
  rw [deriveParams_profile70]
  simp only [contribution, calculate_plasma_concentration]
  norm_num [max_def]

/-- Interval bounds for the model value at `t = 1` hr: it lies in
`[1.489, 1.49]`. -/
lemma conc95_at_one_bounds :
    1.489 ≤ contribution (deriveParams profile70) { amount := 95, timestamp := 0 } 1 ∧
    contribution (deriveParams profile70) { amount := 95, timestamp := 0 } 1 ≤ 1.49 := by
  rw [conc95_at_one_eq]
  obtain ⟨l1, u1⟩ := exp_neg_01_bounds
  obtain ⟨l2, u2⟩ := exp_neg_12_bounds
  constructor
  · refine le_trans ?_ (le_max_left _ _)
    linarith
  · refine max_le ?_ (by norm_num)
    linarith

/-- C2 counterexample: the derived parameters and the zero value at `t = 0`
are as claimed, but the model value at `t = 1` hr is more than `0.02` away
from the claimed `≈ 1.52` mg/L (it is `≈ 1.4895`). -/
theorem c2_counterexample :
    (deriveParams profile70).Vd = 42 ∧ (deriveParams profile70).CL = 4.2 ∧
    (deriveParams profile70).Ke = 0.1 ∧ (deriveParams profile70).Ka = 1.2 ∧
    contribution (deriveParams profile70) { amount := 95, timestamp := 0 } 0 = 0 ∧
    |contribution (deriveParams profile70) { amount := 95, timestamp := 0 } 1
      - 1.52| > 0.02 := by
  obtain ⟨hl, hu⟩ := conc95_at_one_bounds
  have hneg : contribution (deriveParams profile70)
      { amount := 95, timestamp := 0 } 1 - 1.52 < 0 := by linarith
  refine ⟨by rw [deriveParams_profile70], by rw [deriveParams_profile70],
    by rw [deriveParams_profile70], by rw [deriveParams_profile70],
    conc95_at_zero, ?_⟩
  rw [abs_of_neg hneg]
  linarith

/-- C2 amended: for the 70 kg male nonsmoker profile the derived parameters
are `Vd = 42 L`, `CL = 4.2 L/hr`, `Ke = 0.1 hr⁻¹`, `Ka = 1.2 hr⁻¹`; a
single 95 mg dose at `t = 0` gives concentration `0` at `t = 0` and
approximately `1.49` mg/L (not `1.52`) at `t = 1` hr. -/
theorem c2_scenario_values :
    (deriveParams profile70).Vd = 42 ∧ (deriveParams profile70).CL = 4.2 ∧
    (deriveParams profile70).Ke = 0.1 ∧ (deriveParams profile70).Ka = 1.2 ∧
    contribution (deriveParams profile70) { amount := 95, timestamp := 0 } 0 = 0 ∧
    |contribution (deriveParams profile70) { amount := 95, timestamp := 0 } 1
      - 1.49| < 0.005 := by
  obtain ⟨hl, hu⟩ := conc95_at_one_bounds
  refine ⟨by rw [deriveParams_profile70], by rw [deriveParams_profile70],
    by rw [deriveParams_profile70], by rw [deriveParams_profile70],
    conc95_at_zero, ?_⟩
  rw [abs_lt]
  constructor <;> linarith

/-- C8 counterexample: adding a dose with the unknown coffee key
"Čaj (240 ml)" raises nothing — `coffee_options.get(key, 0)` defaults to
`0` and a 0 mg dose event is silently appended. -/
theorem c8_counterexample :
    addEntry [] "Čaj (240 ml)" 1 8 = some [{ amount := 0, timestamp := 8 }] := by
  have h : coffee_options.lookup "Čaj (240 ml)" = none := by decide
  simp [addEntry, coffeeGet, h]

/-- C8 amended: for every key absent from `coffee_options`, `addEntry`
does not fail; it appends a dose event with amount `0` (the `.get`
default multiplied by the servings). -/
theorem c8_unknown_key_appends_zero_dose (entries : List DoseEvent)
    (choice : String) (servings t : ℚ)
    (h : coffee_options.lookup choice = none) :
    addEntry entries choice servings t
      = some (entries ++ [{ amount := 0, timestamp := t }]) := by
  simp [addEntry, coffeeGet, h]

/-- Witness for the amended C8 at the concrete unknown key
"Čaj (240 ml)". -/
theorem c8_unknown_key_appends_zero_dose_witness :
    coffee_options.lookup "Čaj (240 ml)" = none ∧
    addEntry [] "Čaj (240 ml)" 2 8 = some [{ amount := 0, timestamp := 8 }] :=
  ⟨by decide, c8_unknown_key_appends_zero_dose [] "Čaj (240 ml)" 2 8 (by decide)⟩

/-- Witness for C6 at a concrete input: the grid `[0, 1]`, the empty curve
and bedtime `0`. -/
theorem c6_bedtime_query_witness :
    (([(0 : ℚ), 1] : List ℚ) ≠ []) ∧
    (bedtimeIndex [(0 : ℚ), 1] 0 < ([(0 : ℚ), 1] : List ℚ).length ∧
     (∀ j < ([(0 : ℚ), 1] : List ℚ).length,
       |([(0 : ℚ), 1] : List ℚ).getD (bedtimeIndex [(0 : ℚ), 1] 0) 0 - 0| ≤
         |([(0 : ℚ), 1] : List ℚ).getD j 0 - 0|) ∧
     (∀ j < ([(0 : ℚ), 1] : List ℚ).length,
       |([(0 : ℚ), 1] : List ℚ).getD j 0 - 0| =
           |([(0 : ℚ), 1] : List ℚ).getD (bedtimeIndex [(0 : ℚ), 1] 0) 0 - 0| →
         bedtimeIndex [(0 : ℚ), 1] 0 ≤ j) ∧
     (exceedsSleepThreshold (caffeineAtBedtime [(0 : ℚ), 1] [] 0) ↔
       caffeineAtBedtime [(0 : ℚ), 1] [] 0 > 1) ∧
     caffeineAtBedtime [(0 : ℚ), 1]
       (simulate (deriveParams profile70) [] [(0 : ℚ), 1]) 0 = 0 ∧
     ¬ exceedsSleepThreshold (caffeineAtBedtime [(0 : ℚ), 1]
       (simulate (deriveParams profile70) [] [(0 : ℚ), 1]) 0)) :=
  ⟨by simp, c6_bedtime_query [0, 1] [] 0 (deriveParams profile70) (by simp)⟩

/-- C7: for every profile the sequentially adjusted parameters equal the
baseline `Vd = 0.6·weight`, `CL = 0.06·weight` multiplied by exactly the
spec's factors (CL ×0.3 slow / ×1.3 fast, ×1.5 smoker, ×0.85 female with
Vd ×0.85 female, ×0.8 mild / ×0.5 severe liver), with `Ke = CL / Vd`. -/
theorem c7_adjustment_factors (p : Profile) :
    (deriveParams p).Vd = 0.6 * p.weight * genderVdFactor p.gender ∧
    (deriveParams p).CL = 0.06 * p.weight * metabolismFactor p.metabolism_status
      * smokingFactor p.smoking_status * genderClFactor p.gender
      * liverFactor p.liver_function ∧
    (deriveParams p).Ke = (deriveParams p).CL / (deriveParams p).Vd := by
  obtain ⟨w, g, sm, lv, mb⟩ := p
  cases g <;> cases sm <;> cases lv <;> cases mb <;>
    refine ⟨?_, ?_, ?_⟩ <;>
      simp [deriveParams, genderVdFactor, genderClFactor, metabolismFactor,
        smokingFactor, liverFactor] <;> ring

/-- C3: simulating a two-dose schedule yields, at every grid point, exactly
the sum of the curves obtained by simulating each dose alone on the same
grid with the same parameters. -/
theorem c3_superposition (p : PKParameters) (d1 d2 : DoseEvent) (grid : List ℚ) :
    simulate p [d1, d2] grid
      = List.zipWith (· + ·) (simulate p [d1] grid) (simulate p [d2] grid) := by
  induction grid with
  | nil => rfl
  | cons t ts ih => simp [simulate, List.zipWith] at ih ⊢

/-- C4: every value of a simulated curve is nonnegative: each per-dose
contribution is clamped with `np.maximum(·, 0)` before summation, and a sum
of nonnegative terms is nonnegative. -/
theorem c4_concentration_nonneg (p : PKParameters) (doses : List DoseEvent)
    (grid : List ℚ) (x : ℝ) (hx : x ∈ simulate p doses grid) : 0 ≤ x := by
  simp only [simulate, List.mem_map] at hx
  obtain ⟨t, -, rfl⟩ := hx
  refine List.sum_nonneg ?_
  intro c hc
  simp only [List.mem_map] at hc
  obtain ⟨e, -, rfl⟩ := hc
  exact le_max_right _ 0

/-- Witness for C4 at a concrete input: the empty schedule on the
one-point grid `[0]` produces the curve `[0]`, whose value is `≥ 0`. -/
theorem c4_concentration_nonneg_witness :
    ((0 : ℝ) ∈ simulate (deriveParams profile70) [] [0]) ∧ (0 : ℝ) ≤ 0 :=
  ⟨by simp [simulate], c4_concentration_nonneg (deriveParams profile70) [] [0] 0
    (by simp [simulate])⟩

/-- C9: determinism — two simulation runs with identical profile, identical
dose schedule and identical grid configuration (horizon and step) produce
identical concentration curves; the pipeline is a pure function of its
inputs. -/
theorem c9_determinism (pr1 pr2 : Profile) (d1 d2 : List DoseEvent)
    (H1 s1 H2 s2 : ℕ) (hp : pr1 = pr2) (hd : d1 = d2) (hH : H1 = H2)
    (hs : s1 = s2) :
    simulate (deriveParams pr1) d1 (t_hours H1 s1)
      = simulate (deriveParams pr2) d2 (t_hours H2 s2) := by
  subst hp; subst hd; subst hH; subst hs; rfl

/-- The last grid index times the step covers the horizon:
`60·H ≤ ((60·H + s − 1)/s)·s` for positive `s`. -/
lemma gridLen_last_mul_ge (H s : ℕ) (hs : 0 < s) :
    60 * H ≤ (gridLen H s - 1) * s := by
  obtain ⟨m, rfl⟩ : ∃ m, s = m + 1 := ⟨s - 1, by omega⟩
  have hnum : 60 * H + (m + 1) - 1 = 60 * H + m := by omega
  have hidx : gridLen H (m + 1) - 1 = (60 * H + m) / (m + 1) := by
    simp only [gridLen, hnum]
    exact Nat.add_sub_cancel _ _
  rw [hidx]
  have key := Nat.div_add_mod (60 * H + m) (m + 1)
  have hlt : (60 * H + m) % (m + 1) < m + 1 := Nat.mod_lt _ (Nat.succ_pos m)
  set q := (60 * H + m) / (m + 1) with hq
  set r := (60 * H + m) % (m + 1) with hr
  clear_value q r
  zify at key hlt ⊢
  nlinarith [key, hlt]

/-- C5: for any horizon `H` and step `s` within the widget bounds, the grid
is the sequence `0, s/60, 2·s/60, …` and its last point is at or beyond
`H` (right-inclusive coverage of `[0, H]`). -/
theorem c5_grid_right_inclusive (H s : ℕ) (hH1 : 1 ≤ H) (hH2 : H ≤ 23)
    (hs1 : 1 ≤ s) (hs2 : s ≤ 60) :
    (t_hours H s).length = gridLen H s ∧
    (∀ i (hi : i < (t_hours H s).length),
      (t_hours H s).get ⟨i, hi⟩ = (i : ℚ) * ((s : ℚ) / 60)) ∧
    ∃ hne : t_hours H s ≠ [], ((H : ℕ) : ℚ) ≤ (t_hours H s).getLast hne := by
  have hlen : (t_hours H s).length = gridLen H s := by
    simp only [t_hours, List.length_map, List.length_range]
  have hget : ∀ i (hi : i < (t_hours H s).length),
      (t_hours H s).get ⟨i, hi⟩ = (i : ℚ) * ((s : ℚ) / 60) := by
    intro i hi
    have hi2 : i < gridLen H s := hlen ▸ hi
    simp only [t_hours, List.get_eq_getElem, List.getElem_map, List.getElem_range]
  have hne : t_hours H s ≠ [] := by
    refine List.ne_nil_of_length_pos ?_
    rw [hlen]
    exact Nat.succ_pos _
  refine ⟨hlen, hget, hne, ?_⟩
  have hlt : (t_hours H s).length - 1 < (t_hours H s).length := by
    rw [hlen]
    simp [gridLen]
  have hval := hget ((t_hours H s).length - 1) hlt
  rw [List.get_eq_getElem] at hval
  rw [List.getLast_eq_getElem, hval, hlen]
  have hmul := gridLen_last_mul_ge H s (by omega)
  have h1 : 1 ≤ gridLen H s := by simp [gridLen]
  have hcast : ((60 * H : ℕ) : ℚ) ≤ (((gridLen H s - 1) * s : ℕ) : ℚ) := by
    exact_mod_cast hmul
  push_cast [Nat.cast_sub h1] at hcast
  push_cast [Nat.cast_sub h1]
  nlinarith [hcast]

/-- Witness for C5 at the boundary configuration of the spec: horizon 23
hours, step 15 minutes. -/
theorem c5_grid_right_inclusive_witness :
    (1 ≤ 23 ∧ 23 ≤ 23 ∧ 1 ≤ 15 ∧ 15 ≤ 60) ∧
    ((t_hours 23 15).length = gridLen 23 15 ∧
     (∀ i (hi : i < (t_hours 23 15).length),
       (t_hours 23 15).get ⟨i, hi⟩ = (i : ℚ) * (((15 : ℕ) : ℚ) / 60)) ∧
     ∃ hne : t_hours 23 15 ≠ [], ((23 : ℕ) : ℚ) ≤ (t_hours 23 15).getLast hne) :=
  ⟨by omega,
    c5_grid_right_inclusive 23 15 (by omega) (by omega) (by omega) (by omega)⟩

/-- Witness for C9 at a concrete input: the default configuration run
twice. -/
theorem c9_determinism_witness :
    (profile70 = profile70 ∧ ([] : List DoseEvent) = [] ∧ 23 = 23 ∧ 15 = 15) ∧
    simulate (deriveParams profile70) [] (t_hours 23 15)
      = simulate (deriveParams profile70) [] (t_hours 23 15) :=
  ⟨⟨rfl, rfl, rfl, rfl⟩,
    c9_determinism profile70 profile70 [] [] 23 15 23 15 rfl rfl rfl rfl⟩

end Kofeinator
